import Mathlib

/-!
Verification of the Komet---ML repository against its specification.

Dates are modelled as integers counting days (the source manipulates
`datetime` values at day granularity only: all arithmetic is via
`timedelta(days=...)` and `(b - a).days`).  Event counts are naturals.
The remote count endpoint is modelled as an explicit function
`count : ℤ → ℤ → ℕ` passed to the planner.

Python dictionaries (the parsed-feature mappings, the synthetic feature
dict, DataFrame rows) are modelled as association lists over `String`
keys with insertion-order update semantics (`dictUpdate`), so that
"last write wins" behaviour is preserved exactly.
-/

/-- A JSON-like value, covering the payload shapes the repository
manipulates (numbers, strings, booleans, null, arrays, objects). -/
inductive JVal where
  | num : ℚ → JVal
  | str : String → JVal
  | jbool : Bool → JVal
  | null : JVal
  | arr : List JVal → JVal
  | obj : List (String × JVal) → JVal

/-- Lookup in a Python-dict model: first matching key. -/
def dictLookup {α : Type} : List (String × α) → String → Option α
  | [], _ => none
  | (k', v) :: rest, k => if k' = k then some v else dictLookup rest k

/-- `d[k] = v` on a Python-dict model: overwrite in place if the key
exists, append otherwise. -/
def dictUpdate {α : Type} : List (String × α) → String → α → List (String × α)
  | [], k, v => [(k, v)]
  | (k', v') :: rest, k, v =>
      if k' = k then (k, v) :: rest else (k', v') :: dictUpdate rest k v

/-- The `for key, value in entries: if key not in skip: d[key] = value`
loop shape shared by `parse_feature` (join_data.py, skip = avoid_keys)
and the refinement loop of `predict_seismic_impact` (test.py,
skip = keep_original). -/
def dictWriteAll {α : Type} (skip : List String) :
    List (String × α) → List (String × α) → List (String × α)
  | acc, [] => acc
  | acc, (k, v) :: rest =>
      dictWriteAll skip (if k ∈ skip then acc else dictUpdate acc k v) rest

theorem dictLookup_dictUpdate_self {α : Type} (d : List (String × α)) (k : String) (v : α) :
    dictLookup (dictUpdate d k v) k = some v := by
  induction d with
  | nil => simp [dictUpdate, dictLookup]
  | cons kv rest ih =>
    obtain ⟨k', v'⟩ := kv
    by_cases h : k' = k
    · simp [dictUpdate, h, dictLookup]
    · simp [dictUpdate, h, dictLookup, ih]

theorem dictLookup_dictUpdate_ne {α : Type} (d : List (String × α)) (k k0 : String) (v : α)
    (h : k0 ≠ k) : dictLookup (dictUpdate d k v) k0 = dictLookup d k0 := by
  induction d with
  | nil => simp [dictUpdate, dictLookup, Ne.symm h]
  | cons kv rest ih =>
    obtain ⟨k', v'⟩ := kv
    by_cases hk : k' = k
    · subst hk
      simp [dictUpdate, dictLookup, Ne.symm h]
    · simp only [dictUpdate, if_neg hk, dictLookup]
      by_cases hk0 : k' = k0
      · simp [hk0]
      · simp [hk0, ih]

theorem dictLookup_eq_none_iff {α : Type} (d : List (String × α)) (k : String) :
    dictLookup d k = none ↔ k ∉ d.map Prod.fst := by
  induction d with
  | nil => simp [dictLookup]
  | cons kv rest ih =>
    obtain ⟨k', v'⟩ := kv
    by_cases h : k' = k
    · simp [dictLookup, h]
    · simp [dictLookup, h, ih, Ne.symm h]

theorem dictLookup_eq_some_of_mem {α : Type} (d : List (String × α)) (k : String) (v : α)
    (hnd : (d.map Prod.fst).Nodup) (hmem : (k, v) ∈ d) : dictLookup d k = some v := by
  induction d with
  | nil => simp at hmem
  | cons kv rest ih =>
    obtain ⟨k', v'⟩ := kv
    simp only [List.map_cons, List.nodup_cons] at hnd
    rcases List.mem_cons.mp hmem with h | h
    · obtain ⟨hk, hv⟩ := Prod.mk.injEq .. ▸ h
      simp [dictLookup, hk.symm, hv]
    · have hk : k' ≠ k := by
        intro he
        exact hnd.1 (he ▸ (List.mem_map.mpr ⟨(k, v), h, rfl⟩))
      simp [dictLookup, hk, ih hnd.2 h]

theorem mem_of_dictLookup_eq_some {α : Type} (d : List (String × α)) (k : String) (v : α)
    (h : dictLookup d k = some v) : (k, v) ∈ d := by
  induction d with
  | nil => simp [dictLookup] at h
  | cons kv rest ih =>
    obtain ⟨k', v'⟩ := kv
    by_cases hk : k' = k
    · subst hk
      have h' : v' = v := by simpa [dictLookup] using h
      exact List.mem_cons.mpr (Or.inl (by rw [h']))
    · simp only [dictLookup, if_neg hk] at h
      exact List.mem_cons.mpr (Or.inr (ih h))

theorem dictLookup_dictWriteAll_skip {α : Type} (skip : List String) (k : String)
    (hk : k ∈ skip) :
    ∀ (entries acc : List (String × α)),
      dictLookup (dictWriteAll skip acc entries) k = dictLookup acc k := by
  intro entries
  induction entries with
  | nil => intro acc; rfl
  | cons kv rest ih =>
    intro acc
    obtain ⟨k', v'⟩ := kv
    by_cases h : k' ∈ skip
    · simp only [dictWriteAll, if_pos h]
      exact ih acc
    · simp only [dictWriteAll, if_neg h]
      rw [ih, dictLookup_dictUpdate_ne]
      intro he
      exact h (he ▸ hk)

theorem dictLookup_dictWriteAll_not_mem {α : Type} (skip : List String) (k : String) :
    ∀ (entries acc : List (String × α)), k ∉ entries.map Prod.fst →
      dictLookup (dictWriteAll skip acc entries) k = dictLookup acc k := by
  intro entries
  induction entries with
  | nil => intro acc _; rfl
  | cons kv rest ih =>
    intro acc hk
    obtain ⟨k', v'⟩ := kv
    simp only [List.map_cons, List.mem_cons] at hk
    push_neg at hk
    by_cases h : k' ∈ skip
    · simp only [dictWriteAll, if_pos h]
      exact ih acc hk.2
    · simp only [dictWriteAll, if_neg h]
      rw [ih (dictUpdate acc k' v') hk.2, dictLookup_dictUpdate_ne acc k' k v' hk.1]

theorem dictLookup_dictWriteAll_mem {α : Type} (skip : List String) (k : String) (v : α)
    (hk : k ∉ skip) :
    ∀ (entries acc : List (String × α)), (k, v) ∈ entries →
      (entries.map Prod.fst).Nodup →
      dictLookup (dictWriteAll skip acc entries) k = some v := by
  intro entries
  induction entries with
  | nil => intro acc h; simp at h
  | cons kv rest ih =>
    intro acc hmem hnd
    obtain ⟨k', v'⟩ := kv
    simp only [List.map_cons, List.nodup_cons] at hnd
    rcases List.mem_cons.mp hmem with h | h
    · obtain ⟨hk', hv⟩ := Prod.mk.injEq .. ▸ h
      subst hk' hv
      simp only [dictWriteAll, if_neg hk]
      rw [dictLookup_dictWriteAll_not_mem skip k rest _ hnd.1]
      exact dictLookup_dictUpdate_self acc k v
    · simp only [dictWriteAll]
      split
      · exact ih acc h hnd.2
      · exact ih _ h hnd.2

namespace GetData

/-- Hard API result-count ceiling (`MAX_EVENTS = 20000` in get_data.py). -/
def MAX_EVENTS : ℕ := 20000

/-- Secondary target (`TARGET_EVENTS = 15000` in get_data.py).  The source
compares `count >= TARGET_EVENTS * 0.8`; for an integer count this float
comparison is exactly `12000 ≤ count` (15000 * 0.8 evaluates to the double
12000.0). -/
def TARGET_EVENTS : ℕ := 15000

/-- The `while left <= right` loop of `find_optimal_end_date`
(get_data.py lines 76-96).  `mid = left + days_diff // 2`; under the loop
guard `left ≤ right` the day difference is nonnegative, so Python's floor
division agrees with natural-number division on `(right - left).toNat`. -/
def findOptimalLoop (count : ℤ → ℤ → ℕ) (start : ℤ) (left right best : ℤ) : ℤ :=
  if left ≤ right then
    let mid : ℤ := left + (((right - left).toNat / 2 : ℕ) : ℤ)
    if mid ≤ start then best
    else
      let c := count start mid
      if c ≤ MAX_EVENTS then
        if 12000 ≤ c then mid
        else findOptimalLoop count start (mid + 1) right mid
      else findOptimalLoop count start left (mid - 1) best
  else best
termination_by (right - left + 1).toNat
decreasing_by
  · omega
  · omega

/-- `find_optimal_end_date(session, start_date, max_end_date)` from
get_data.py lines 71-98, with the network count oracle made explicit. -/
def find_optimal_end_date (count : ℤ → ℤ → ℕ) (start_date max_end_date : ℤ) : ℤ :=
  findOptimalLoop count start_date start_date max_end_date start_date

/-- The synthetic count family from the specification's test property:
`count(start, end) = (end - start).days * K` (clamped at 0 for reversed
ranges, which the planner never queries). -/
def countLin (K : ℕ) (s e : ℤ) : ℕ := (e - s).toNat * K

theorem countLin_mono (K : ℕ) (s : ℤ) : ∀ a b : ℤ, a ≤ b → countLin K s a ≤ countLin K s b :=
  fun _ _ h => Nat.mul_le_mul_right K (by omega)

/-- Loop invariant: if the running best candidate is under the cap, so is
the final one (the loop only replaces `best_end` by a `mid` whose count
was checked to be `≤ MAX_EVENTS`). -/
theorem findOptimalLoop_le_max (count : ℤ → ℤ → ℕ) (start : ℤ) :
    ∀ left right best : ℤ, count start best ≤ MAX_EVENTS →
      count start (findOptimalLoop count start left right best) ≤ MAX_EVENTS := by
  intro left right best
  induction left, right, best using findOptimalLoop.induct count start with
  | case1 left right best hlr mid hmid =>
    intro hb; rw [findOptimalLoop]; simp only [if_pos hlr, if_pos hmid]; exact hb
  | case2 left right best hlr mid hmid c hc h12 =>
    intro hb; rw [findOptimalLoop]; simp only [if_pos hlr, if_neg hmid, if_pos hc, if_pos h12]
    exact hc
  | case3 left right best hlr mid hmid c hc h12 ih =>
    intro hb; rw [findOptimalLoop]; simp only [if_pos hlr, if_neg hmid, if_pos hc, if_neg h12]
    exact ih hc
  | case4 left right best hlr mid hmid c hc ih =>
    intro hb; rw [findOptimalLoop]; simp only [if_pos hlr, if_neg hmid, if_neg hc]
    exact ih hb
  | case5 left right best hlr =>
    intro hb; rw [findOptimalLoop]; simp only [if_neg hlr]; exact hb

/-- Loop invariant: if every count strictly past `start` exceeds the cap,
`best_end` is never moved off `start`. -/
theorem findOptimalLoop_stuck (count : ℤ → ℤ → ℕ) (start : ℤ)
    (hover : ∀ e : ℤ, start < e → MAX_EVENTS < count start e) :
    ∀ left right best : ℤ, best = start →
      findOptimalLoop count start left right best = start := by
  intro left right best
  induction left, right, best using findOptimalLoop.induct count start with
  | case1 left right best hlr mid hmid =>
    intro hb; rw [findOptimalLoop]; simp only [if_pos hlr, if_pos hmid]; exact hb
  | case2 left right best hlr mid hmid c hc h12 =>
    intro hb
    exact absurd hc (Nat.not_le.mpr (hover mid (by omega)))
  | case3 left right best hlr mid hmid c hc h12 ih =>
    intro hb
    exact absurd hc (Nat.not_le.mpr (hover mid (by omega)))
  | case4 left right best hlr mid hmid c hc ih =>
    intro hb; rw [findOptimalLoop]; simp only [if_pos hlr, if_neg hmid, if_neg hc]
    exact ih hb
  | case5 left right best hlr =>
    intro hb; rw [findOptimalLoop]; simp only [if_neg hlr]; exact hb

/-- Binary-search invariant: for a monotone count, if some candidate end
`e'` at least two days past `start` has a count in `[12000, MAX_EVENTS]`,
the loop's result reaches at least 12000 events.  (`e' = start + 1` is
genuinely excluded: the `mid <= start` degenerate-interval break prevents
the single-day candidate from ever being queried.) -/
theorem findOptimalLoop_reaches (count : ℤ → ℤ → ℕ) (start e' : ℤ)
    (mono : ∀ a b : ℤ, a ≤ b → count start a ≤ count start b)
    (he : start + 2 ≤ e') (h12 : 12000 ≤ count start e') (h20 : count start e' ≤ MAX_EVENTS) :
    ∀ left right best : ℤ, start ≤ left → e' ≤ right →
      ((best = start ∧ left = start) ∨ (best = left - 1 ∧ start < best)) →
      12000 ≤ count start (findOptimalLoop count start left right best) := by
  intro left right best
  induction left, right, best using findOptimalLoop.induct count start with
  | case1 left right best hlr mid hmid =>
    intro hl hr hI
    have hmd : mid = left + (((right - left).toNat / 2 : ℕ) : ℤ) := rfl
    omega
  | case2 left right best hlr mid hmid c hc h12c =>
    intro hl hr hI
    rw [findOptimalLoop]; simp only [if_pos hlr, if_neg hmid, if_pos hc, if_pos h12c]
    exact h12c
  | case3 left right best hlr mid hmid c hc h12c ih =>
    intro hl hr hI
    rw [findOptimalLoop]; simp only [if_pos hlr, if_neg hmid, if_pos hc, if_neg h12c]
    exact ih (by omega) hr (Or.inr ⟨by ring, by omega⟩)
  | case4 left right best hlr mid hmid c hc ih =>
    intro hl hr hI
    rw [findOptimalLoop]; simp only [if_pos hlr, if_neg hmid, if_neg hc]
    have hem : e' < mid := by
      by_contra hcon
      exact hc (le_trans (mono mid e' (by omega)) h20)
    exact ih hl (by omega) hI
  | case5 left right best hlr =>
    intro hl hr hI
    rw [findOptimalLoop]; simp only [if_neg hlr]
    rcases hI with ⟨hb, hls⟩ | ⟨hb, hbs⟩
    · omega
    · exact le_trans h12 (mono e' best (by omega))

/-- The loop never returns a date before `start` (it returns `best_end`,
initialised to `start` and only ever replaced by a `mid > start`). -/
theorem find_optimal_end_date_ge (count : ℤ → ℤ → ℕ) (s m : ℤ) :
    s ≤ find_optimal_end_date count s m := by
  have key : ∀ left right best : ℤ, s ≤ best → s ≤ findOptimalLoop count s left right best := by
    intro left right best
    induction left, right, best using findOptimalLoop.induct count s with
    | case1 left right best hlr mid hmid =>
      intro hb; rw [findOptimalLoop]; simp only [if_pos hlr, if_pos hmid]; exact hb
    | case2 left right best hlr mid hmid c hc h12 =>
      intro hb; rw [findOptimalLoop]; simp only [if_pos hlr, if_neg hmid, if_pos hc, if_pos h12]
      omega
    | case3 left right best hlr mid hmid c hc h12 ih =>
      intro hb; rw [findOptimalLoop]; simp only [if_pos hlr, if_neg hmid, if_pos hc, if_neg h12]
      exact ih (by omega)
    | case4 left right best hlr mid hmid c hc ih =>
      intro hb; rw [findOptimalLoop]; simp only [if_pos hlr, if_neg hmid, if_neg hc]
      exact ih hb
    | case5 left right best hlr =>
      intro hb; rw [findOptimalLoop]; simp only [if_neg hlr]; exact hb
  exact key s m s le_rfl

/-- C1 (amended): for the synthetic linear count family the planner's
result is always within the cap, and whenever some candidate end at least
TWO days past `start` has a count in `[12000, 20000]`, the result's count
reaches at least `0.8 * TARGET_EVENTS = 12000`.  (The original claim,
which also admits the single-day candidate `end' = start + 1`, is refuted
by `find_optimal_end_date_single_day_counterexample`.) -/
theorem chunk_planner_linear_count (K : ℕ) (start maxEnd : ℤ) :
    countLin K start (find_optimal_end_date (countLin K) start maxEnd) ≤ MAX_EVENTS ∧
    (∀ e' : ℤ, start + 2 ≤ e' → e' ≤ maxEnd → 12000 ≤ countLin K start e' →
      countLin K start e' ≤ MAX_EVENTS →
      12000 ≤ countLin K start (find_optimal_end_date (countLin K) start maxEnd)) := by
  constructor
  · exact findOptimalLoop_le_max (countLin K) start start maxEnd start (by simp [countLin])
  · intro e' he hem h12 h20
    exact findOptimalLoop_reaches (countLin K) start e' (countLin_mono K start) he h12 h20
      start maxEnd start le_rfl hem (Or.inl ⟨rfl, rfl⟩)

/-- Witness for `chunk_planner_linear_count`: with `K = 6000`, `start = 0`,
`max_end = 4`, the candidate `end' = 3` has count 18000 ∈ [12000, 20000],
and the planner indeed returns an end whose count is in [12000, 20000]. -/
theorem chunk_planner_linear_count_witness :
    12000 ≤ countLin 6000 0 (find_optimal_end_date (countLin 6000) 0 4) ∧
    countLin 6000 0 (find_optimal_end_date (countLin 6000) 0 4) ≤ MAX_EVENTS :=
  ⟨(chunk_planner_linear_count 6000 0 4).2 3 (by norm_num) (by norm_num) (by decide) (by decide),
   (chunk_planner_linear_count 6000 0 4).1⟩

/-- C1 counterexample: with `start = 0`, `max_end = 1` and the linear count
`count(s, e) = (e - s) * 12000`, the candidate `end' = 1` lies in
`(start, max_end]` and has count 12000 ∈ [12000, 20000], yet the planner
returns `end = start = 0` whose count 0 is below 12000: the binary search
computes `mid = 0 ≤ start` on its first iteration and hits the degenerate
break without ever querying the single-day range. -/
theorem find_optimal_end_date_single_day_counterexample :
    (0 : ℤ) < 1 ∧ (1 : ℤ) ≤ 1 ∧
    12000 ≤ countLin 12000 0 1 ∧ countLin 12000 0 1 ≤ MAX_EVENTS ∧
    find_optimal_end_date (countLin 12000) 0 1 = 0 ∧
    ¬ 12000 ≤ countLin 12000 0 (find_optimal_end_date (countLin 12000) 0 1) := by
  have h : find_optimal_end_date (countLin 12000) 0 1 = 0 := by
    rw [find_optimal_end_date, findOptimalLoop]
    norm_num
  refine ⟨by norm_num, le_rfl, by decide, by decide, h, ?_⟩
  rw [h]
  decide

/-- C2: if every range strictly longer than zero days exceeds the cap, the
planner returns `start` itself (the degenerate zero-growth chunk).  The
loop terminates for every input: `findOptimalLoop` is a total function,
defined by well-founded recursion on the width of `[left, right]`. -/
theorem chunk_planner_degenerate (count : ℤ → ℤ → ℕ) (start maxEnd : ℤ)
    (hover : ∀ e : ℤ, start < e → MAX_EVENTS < count start e) :
    find_optimal_end_date count start maxEnd = start :=
  findOptimalLoop_stuck count start hover start maxEnd start rfl

/-- Witness for `chunk_planner_degenerate` with the constant count 30000
(every single-day range already exceeds the cap). -/
theorem chunk_planner_degenerate_witness :
    find_optimal_end_date (fun _ _ => 30000) 0 5 = 0 :=
  chunk_planner_degenerate (fun _ _ => 30000) 0 5 (fun _ _ => by norm_num [MAX_EVENTS])

/-- `SAMPLES` in get_data.py is `float('inf')`; the sample target is
modelled as `Option ℕ`, with `none` standing for the unbounded default.
`belowTarget samples total` is the `total_samples_collected < SAMPLES`
comparison. -/
def belowTarget : Option ℕ → ℕ → Bool
  | none, _ => true
  | some n, total => total < n

/-- The driver loop of `download_data_in_chunks` (get_data.py lines
100-136), as a function of the count oracle.  Each iteration plans a
chunk from `current`, re-fetches the count of `[current, optimal_end]`
(the downloader then returns that same expected count, which is
accumulated), and advances to `optimal_end + 1`.  The recursion is
well-founded on `(finalDate - current).toNat`: it typechecks only
because every iteration advances `current` by at least one day
(`find_optimal_end_date_ge`), which is the termination argument of C3. -/
def download_data_in_chunks (count : ℤ → ℤ → ℕ) (finalDate : ℤ) (samples : Option ℕ)
    (current : ℤ) (total : ℕ) : ℤ × ℕ :=
  if current < finalDate ∧ belowTarget samples total = true then
    let e := find_optimal_end_date count current finalDate
    let c := count current e
    download_data_in_chunks count finalDate samples (e + 1) (total + c)
  else (current, total)
termination_by (finalDate - current).toNat
decreasing_by
  have hge := find_optimal_end_date_ge count current finalDate
  omega

/-- The driver loop only ever stops in a state satisfying the terminal
condition: the timespan is exhausted or the sample target is reached. -/
theorem download_exit_condition (count : ℤ → ℤ → ℕ) (finalDate : ℤ) (samples : Option ℕ) :
    ∀ current total,
      finalDate ≤ (download_data_in_chunks count finalDate samples current total).1 ∨
      belowTarget samples (download_data_in_chunks count finalDate samples current total).2
        = false := by
  intro current total
  induction current, total using download_data_in_chunks.induct count finalDate samples with
  | case1 current total hcond e c ih =>
    rw [download_data_in_chunks]; simp only [if_pos hcond]
    exact ih
  | case2 current total hcond =>
    rw [download_data_in_chunks]; simp only [if_neg hcond]
    rcases Decidable.not_and_iff_or_not.mp hcond with h | h
    · exact Or.inl (by omega)
    · exact Or.inr (by simpa using h)

/-- C3: the acquisition driver terminates.  While the loop guard holds,
(i) the planned end is `≥ current_date`, (ii) the loop body advances
`current_date` to `end + 1`, a strict advance of at least one day, and
(iii) whatever state the loop stops in satisfies exactly the terminal
condition `current_date ≥ final_date ∨ total ≥ sample_target`.  The loop's
embedding `download_data_in_chunks` is total by well-founded recursion on
the remaining days, which is the formal content of termination. -/
theorem download_data_in_chunks_terminates (count : ℤ → ℤ → ℕ) (finalDate : ℤ)
    (samples : Option ℕ) (current : ℤ) (total : ℕ)
    (h1 : current < finalDate) (h2 : belowTarget samples total = true) :
    current ≤ find_optimal_end_date count current finalDate ∧
    download_data_in_chunks count finalDate samples current total =
      download_data_in_chunks count finalDate samples
        (find_optimal_end_date count current finalDate + 1)
        (total + count current (find_optimal_end_date count current finalDate)) ∧
    current + 1 ≤ find_optimal_end_date count current finalDate + 1 ∧
    (finalDate ≤ (download_data_in_chunks count finalDate samples current total).1 ∨
      belowTarget samples (download_data_in_chunks count finalDate samples current total).2
        = false) := by
  have hge := find_optimal_end_date_ge count current finalDate
  refine ⟨hge, ?_, by omega, download_exit_condition count finalDate samples current total⟩
  rw [download_data_in_chunks]
  simp only [if_pos (And.intro h1 h2)]

/-- Python exception outcomes of `get_event_count`. -/
inductive PyError where
  | valueError : String → PyError
  | typeError : PyError

/-- `get_event_count` (get_data.py lines 24-50), with the two parsing
primitives passed explicitly: `intParse` models `int(text.strip())`
(`none` when `int` raises `ValueError`) and `jsonParse` models
`json.loads(text)` (`none` when it raises `json.JSONDecodeError`, which
the inner `except` clause catches and converts).  A JSON body that is not
an object always ends in a raised exception in the source (`ValueError`
when `"count" in error_data` is false, `TypeError` from the membership
test or the `error_data["count"]` indexing otherwise — neither is a
`json.JSONDecodeError`, so neither is caught); that family is modelled as
the single `typeError` outcome. -/
def get_event_count (intParse : String → Option ℤ) (jsonParse : String → Option JVal)
    (text : String) : Except PyError JVal :=
  match intParse text.trim with
  | some n => .ok (.num (n : ℚ))
  | none =>
    match jsonParse text with
    | some (.obj fields) =>
      match dictLookup fields "count" with
      | some v => .ok v
      | none => .error (.valueError "Count not found in error response")
    | some _ => .error .typeError
    | none => .error (.valueError "Invalid response from count API")

/-- C8: a bare integer body yields the parsed integer; a JSON object body
carrying a `count` field yields that count as a valid (non-error) result;
every other body — unparsable text, JSON that is not an object, or an
object without `count` — raises. -/
theorem get_event_count_spec (intParse : String → Option ℤ)
    (jsonParse : String → Option JVal) (text : String) :
    (∀ n : ℤ, intParse text.trim = some n →
      get_event_count intParse jsonParse text = .ok (.num (n : ℚ))) ∧
    (∀ (fields : List (String × JVal)) (v : JVal), intParse text.trim = none →
      jsonParse text = some (.obj fields) → dictLookup fields "count" = some v →
      get_event_count intParse jsonParse text = .ok v) ∧
    (intParse text.trim = none →
      (∀ fields, jsonParse text = some (.obj fields) → dictLookup fields "count" = none) →
      ∃ e, get_event_count intParse jsonParse text = .error e) := by
  refine ⟨?_, ?_, ?_⟩
  · intro n h
    simp [get_event_count, h]
  · intro fields v h1 h2 h3
    simp [get_event_count, h1, h2, h3]
  · intro h1 h2
    cases hj : jsonParse text with
    | none =>
      exact ⟨.valueError "Invalid response from count API", by simp [get_event_count, h1, hj]⟩
    | some j =>
      cases j with
      | obj fields =>
        exact ⟨.valueError "Count not found in error response",
          by simp [get_event_count, h1, hj, h2 fields hj]⟩
      | num q => exact ⟨.typeError, by simp [get_event_count, h1, hj]⟩
      | str s => exact ⟨.typeError, by simp [get_event_count, h1, hj]⟩
      | jbool b => exact ⟨.typeError, by simp [get_event_count, h1, hj]⟩
      | null => exact ⟨.typeError, by simp [get_event_count, h1, hj]⟩
      | arr l => exact ⟨.typeError, by simp [get_event_count, h1, hj]⟩

/-- Witness for `get_event_count_spec`: one concrete body per branch —
a bare integer, a structured error object still carrying `count = 25000`
(the over-limit shape), and an unparsable body. -/
theorem get_event_count_spec_witness :
    get_event_count (fun _ => some 17) (fun _ => none) "17" = .ok (.num (17 : ℚ)) ∧
    get_event_count (fun _ => none) (fun _ => some (.obj [("count", .num 25000)])) "x"
      = .ok (.num 25000) ∧
    ∃ e, get_event_count (fun _ => none) (fun _ => none) "zzz" = .error e :=
  ⟨(get_event_count_spec (fun _ => some 17) (fun _ => none) "17").1 17 rfl,
   (get_event_count_spec (fun _ => none) (fun _ => some (.obj [("count", .num 25000)])) "x").2.1
     [("count", .num 25000)] (.num 25000) rfl rfl rfl,
   (get_event_count_spec (fun _ => none) (fun _ => none) "zzz").2.2 rfl
     (fun _ h => nomatch h)⟩

/-- Witness for `download_data_in_chunks_terminates`: a concrete run with
a constant count of 5 events per chunk, final date 3 days out and the
unbounded sample target. -/
theorem download_data_in_chunks_terminates_witness :
    (0 : ℤ) ≤ find_optimal_end_date (fun _ _ => 5) 0 3 ∧
    download_data_in_chunks (fun _ _ => 5) 3 none 0 0 =
      download_data_in_chunks (fun _ _ => 5) 3 none
        (find_optimal_end_date (fun _ _ => 5) 0 3 + 1)
        (0 + (fun _ _ => 5) 0 (find_optimal_end_date (fun _ _ => 5) 0 3)) ∧
    (0 : ℤ) + 1 ≤ find_optimal_end_date (fun _ _ => 5) 0 3 + 1 ∧
    (3 ≤ (download_data_in_chunks (fun _ _ => 5) 3 none 0 0).1 ∨
      belowTarget none (download_data_in_chunks (fun _ _ => 5) 3 none 0 0).2 = false) :=
  download_data_in_chunks_terminates (fun _ _ => 5) 3 none 0 0 (by norm_num) rfl

end GetData

namespace JoinData

/-- A GeoJSON feature record as consumed by `parse_feature`
(join_data.py): optional `properties` and `geometry` sub-objects, each a
JSON object (association list with distinct keys in well-formed JSON). -/
structure Feature where
  properties : Option (List (String × JVal))
  geometry : Option (List (String × JVal))

/-- The administrative-key denylist of `parse_feature` (join_data.py
line 11). -/
def avoid_keys : List String :=
  ["id", "url", "detail", "code", "ids", "sources", "types", "title", "status", "type"]

/-- `parse_feature` (join_data.py lines 9-23): copy the non-denylisted
`properties` entries into a fresh dict, then the non-denylisted
`geometry` entries, so on a key collision the geometry write lands last
and wins. -/
def parse_feature (f : Feature) : List (String × JVal) :=
  let p1 := match f.properties with
    | some props => dictWriteAll avoid_keys [] props
    | none => []
  match f.geometry with
  | some geo => dictWriteAll avoid_keys p1 geo
  | none => p1

/-- C9: `parse_feature` yields the flattened mapping of `properties` and
`geometry` minus exactly the denylist: a denylisted key is absent from
the result; a non-denylisted key carried by `geometry` gets the geometry
value (geometry is written after properties, so it wins collisions); a
non-denylisted key not in `geometry` resolves exactly as in
`properties`. -/
theorem parse_feature_spec (props geo : List (String × JVal)) (k : String)
    (hp : (props.map Prod.fst).Nodup) (hg : (geo.map Prod.fst).Nodup) :
    (k ∈ avoid_keys → dictLookup (parse_feature ⟨some props, some geo⟩) k = none) ∧
    (k ∉ avoid_keys → ∀ v, dictLookup geo k = some v →
      dictLookup (parse_feature ⟨some props, some geo⟩) k = some v) ∧
    (k ∉ avoid_keys → dictLookup geo k = none →
      dictLookup (parse_feature ⟨some props, some geo⟩) k = dictLookup props k) := by
  have hpf : parse_feature ⟨some props, some geo⟩
      = dictWriteAll avoid_keys (dictWriteAll avoid_keys [] props) geo := rfl
  refine ⟨?_, ?_, ?_⟩
  · intro hk
    rw [hpf, dictLookup_dictWriteAll_skip avoid_keys k hk,
      dictLookup_dictWriteAll_skip avoid_keys k hk]
    rfl
  · intro hk v hv
    exact hpf ▸ dictLookup_dictWriteAll_mem avoid_keys k v hk geo _
      (mem_of_dictLookup_eq_some geo k v hv) hg
  · intro hk hv
    rw [hpf, dictLookup_dictWriteAll_not_mem avoid_keys k geo _
      ((dictLookup_eq_none_iff geo k).mp hv)]
    cases hlp : dictLookup props k with
    | some v =>
      exact dictLookup_dictWriteAll_mem avoid_keys k v hk props []
        (mem_of_dictLookup_eq_some props k v hlp) hp
    | none =>
      rw [dictLookup_dictWriteAll_not_mem avoid_keys k props []
        ((dictLookup_eq_none_iff props k).mp hlp)]
      rfl

/-- Witness for `parse_feature_spec`: the specification's concrete
example — `properties = {mag: 5.1, id: "xyz", place: "Tokyo"}`,
`geometry = {type: "Point", coordinates: [1, 2]}` — excludes `id` and
`type` and keeps `mag`, `place`, `coordinates`. -/
theorem parse_feature_spec_witness :
    dictLookup (parse_feature ⟨some [("mag", .num (51/10)), ("id", .str "xyz"),
        ("place", .str "Tokyo")],
      some [("type", .str "Point"), ("coordinates", .arr [.num 1, .num 2])]⟩) "id" = none ∧
    dictLookup (parse_feature ⟨some [("mag", .num (51/10)), ("id", .str "xyz"),
        ("place", .str "Tokyo")],
      some [("type", .str "Point"), ("coordinates", .arr [.num 1, .num 2])]⟩) "type" = none ∧
    dictLookup (parse_feature ⟨some [("mag", .num (51/10)), ("id", .str "xyz"),
        ("place", .str "Tokyo")],
      some [("type", .str "Point"), ("coordinates", .arr [.num 1, .num 2])]⟩) "mag"
      = some (.num (51/10)) ∧
    dictLookup (parse_feature ⟨some [("mag", .num (51/10)), ("id", .str "xyz"),
        ("place", .str "Tokyo")],
      some [("type", .str "Point"), ("coordinates", .arr [.num 1, .num 2])]⟩) "place"
      = some (.str "Tokyo") ∧
    dictLookup (parse_feature ⟨some [("mag", .num (51/10)), ("id", .str "xyz"),
        ("place", .str "Tokyo")],
      some [("type", .str "Point"), ("coordinates", .arr [.num 1, .num 2])]⟩) "coordinates"
      = some (.arr [.num 1, .num 2]) := by
  have h := fun k => parse_feature_spec
    [("mag", JVal.num (51/10)), ("id", JVal.str "xyz"), ("place", JVal.str "Tokyo")]
    [("type", JVal.str "Point"), ("coordinates", JVal.arr [JVal.num 1, JVal.num 2])]
    k (by decide) (by decide)
  exact ⟨(h "id").1 (by decide),
    (h "type").1 (by decide),
    ((h "mag").2.2 (by decide) rfl).trans rfl,
    ((h "place").2.2 (by decide) rfl).trans rfl,
    (h "coordinates").2.1 (by decide) (JVal.arr [JVal.num 1, JVal.num 2]) rfl⟩

/-- The outcome of reading one chunk file in `join_data_files`
(join_data.py lines 38-66): `malformed` when `json.load` raises
`json.JSONDecodeError` (or a `KeyError` surfaces) — the `except` clause
logs and `continue`s; `parsed none` when the loaded JSON has no usable
`features` entry; `parsed (some fs)` when it has one (`some []` is falsy
in the `if 'features' in data and data['features']` gate and contributes
nothing, like `none`). -/
inductive ChunkFile where
  | malformed : ChunkFile
  | parsed : Option (List Feature) → ChunkFile

/-- The features a chunk file actually contributes to the join. -/
def well_formed_features : ChunkFile → List Feature
  | .parsed (some fs) => fs
  | _ => []

/-- The inner `for j, feature in enumerate(features)` loop: each feature
is parsed and written, preceded by `,\n` except for the very first
feature of the whole run (`first_feature` flag).  `render` stands for
`json.dump` of one parsed feature.  State is (file text so far,
first_feature). -/
def write_features (render : List (String × JVal) → String) :
    List Feature → String × Bool → String × Bool
  | [], st => st
  | f :: rest, st =>
      write_features render rest
        (st.1 ++ (if st.2 then "" else ",\n") ++ render (parse_feature f), false)

/-- Processing of one chunk file in the `for i, file in enumerate(files)`
loop: a malformed file (or one without features) leaves the output state
untouched; a well-formed file appends all its parsed features. -/
def process_file (render : List (String × JVal) → String) (st : String × Bool) :
    ChunkFile → String × Bool
  | .malformed => st
  | .parsed none => st
  | .parsed (some fs) => write_features render fs st

/-- `join_data_files` (join_data.py lines 25-76): write `[\n`, stream
every file through `process_file`, close with `\n]`.  The returned
string is the full content of the output file. -/
def join_data_files (render : List (String × JVal) → String)
    (files : List ChunkFile) : String :=
  let st := files.foldl (process_file render) ("[\n", true)
  st.1 ++ "\n]"

/-- Specification-side description: the features of the well-formed
files, in file order. -/
def gatheredFeatures : List ChunkFile → List Feature
  | [] => []
  | f :: rest => well_formed_features f ++ gatheredFeatures rest

/-- `,\n`-prefixed rendering of every feature of a list. -/
def tailConcat (render : List (String × JVal) → String) : List Feature → String
  | [] => ""
  | f :: rest => ",\n" ++ render (parse_feature f) ++ tailConcat render rest

/-- Comma-separated rendering of the parsed features: the body of a JSON
array whose elements are exactly the `parse_feature` projections. -/
def renderedSep (render : List (String × JVal) → String) : List Feature → String
  | [] => ""
  | f :: rest => render (parse_feature f) ++ tailConcat render rest

theorem tailConcat_append (render : List (String × JVal) → String)
    (xs ys : List Feature) :
    tailConcat render (xs ++ ys) = tailConcat render xs ++ tailConcat render ys := by
  induction xs with
  | nil => simp [tailConcat]
  | cons f rest ih =>
    simp only [List.cons_append, tailConcat, List.append_eq, ih, String.append_assoc]

theorem write_features_not_first (render : List (String × JVal) → String) :
    ∀ (fs : List Feature) (s : String),
      write_features render fs (s, false) = (s ++ tailConcat render fs, false) := by
  intro fs
  induction fs with
  | nil => intro s; simp [write_features, tailConcat]
  | cons f rest ih =>
    intro s
    simp only [write_features, tailConcat, ih, String.append_assoc, if_neg Bool.false_ne_true]

theorem foldl_process_not_first (render : List (String × JVal) → String) :
    ∀ (files : List ChunkFile) (s : String),
      files.foldl (process_file render) (s, false)
        = (s ++ tailConcat render (gatheredFeatures files), false) := by
  intro files
  induction files with
  | nil => intro s; simp [gatheredFeatures, tailConcat]
  | cons file rest ih =>
    intro s
    cases file with
    | malformed => simpa [gatheredFeatures, well_formed_features, process_file] using ih s
    | parsed ofs =>
      cases ofs with
      | none => simpa [gatheredFeatures, well_formed_features, process_file] using ih s
      | some fs =>
        simp only [List.foldl_cons, process_file, write_features_not_first, ih,
          gatheredFeatures, well_formed_features, tailConcat_append, String.append_assoc]

theorem foldl_process_first_empty (render : List (String × JVal) → String) :
    ∀ (files : List ChunkFile) (s : String), gatheredFeatures files = [] →
      files.foldl (process_file render) (s, true) = (s, true) := by
  intro files
  induction files with
  | nil => intro s _; rfl
  | cons file rest ih =>
    intro s hg
    cases file with
    | malformed => exact ih s hg
    | parsed ofs =>
      cases ofs with
      | none => exact ih s hg
      | some fs =>
        simp only [gatheredFeatures, well_formed_features, List.append_eq_nil] at hg
        obtain ⟨hfs, hrest⟩ := hg
        subst hfs
        exact ih s hrest

theorem foldl_process_first_cons (render : List (String × JVal) → String) :
    ∀ (files : List ChunkFile) (s : String) (f : Feature) (rest : List Feature),
      gatheredFeatures files = f :: rest →
      files.foldl (process_file render) (s, true)
        = (s ++ render (parse_feature f) ++ tailConcat render rest, false) := by
  intro files
  induction files with
  | nil => intro s f rest h; simp [gatheredFeatures] at h
  | cons file frest ih =>
    intro s f rest hg
    cases file with
    | malformed => exact ih s f rest hg
    | parsed ofs =>
      cases ofs with
      | none => exact ih s f rest hg
      | some fs =>
        cases fs with
        | nil => exact ih s f rest hg
        | cons f0 fs' =>
          simp only [gatheredFeatures, well_formed_features, List.cons_append,
            List.cons.injEq] at hg
          obtain ⟨hf, hrest⟩ := hg
          subst hf
          subst hrest
          have hw : write_features render (f0 :: fs') (s, true)
              = (s ++ render (parse_feature f0) ++ tailConcat render fs', false) := by
            simp [write_features, write_features_not_first, String.append_assoc]
          simp only [List.foldl_cons, process_file, hw, foldl_process_not_first,
            tailConcat_append, String.append_assoc]

/-- C7: the joiner always emits a single bracketed, comma-separated JSON
array whose element list is exactly the `parse_feature` projection of the
features of the well-formed files, in order; and a malformed file is
skipped — removing it from the input changes nothing, so it neither
aborts the join nor affects what is emitted for the other files. -/
theorem join_data_files_spec (render : List (String × JVal) → String)
    (files : List ChunkFile) :
    join_data_files render files
      = "[\n" ++ renderedSep render (gatheredFeatures files) ++ "\n]" ∧
    (∀ l1 l2 : List ChunkFile,
      join_data_files render (l1 ++ ChunkFile.malformed :: l2)
        = join_data_files render (l1 ++ l2)) := by
  constructor
  · show (files.foldl (process_file render) ("[\n", true)).1 ++ "\n]" = _
    cases hg : gatheredFeatures files with
    | nil =>
      rw [foldl_process_first_empty render files "[\n" hg]
      simp [renderedSep, String.append_empty]
    | cons f rest =>
      rw [foldl_process_first_cons render files "[\n" f rest hg]
      simp [renderedSep, String.append_assoc]
  · intro l1 l2
    show ((l1 ++ ChunkFile.malformed :: l2).foldl (process_file render) ("[\n", true)).1 ++ "\n]"
      = ((l1 ++ l2).foldl (process_file render) ("[\n", true)).1 ++ "\n]"
    rw [List.foldl_append, List.foldl_append, List.foldl_cons]
    rfl

end JoinData

namespace TestModel

/-- Python `int()` truncation toward zero, on the exact rationals used to
model float arithmetic in test.py. -/
def pyInt (x : ℚ) : ℤ := if 0 ≤ x then ⌊x⌋ else ⌈x⌉

/-- The CDI ladder of `generate_seismic_features` (test.py lines 43-50). -/
def cdiOf (m : ℚ) : ℚ := if 7 ≤ m then 6 else if 6 ≤ m then 4 else if 5 ≤ m then 3 else 2

/-- The MMI ladder of `generate_seismic_features` (test.py lines 53-60). -/
def mmiOf (m : ℚ) : ℚ := if 7 ≤ m then 7 else if 6 ≤ m then 5 else if 5 ≤ m then 4 else 3

/-- `felt = max(0, int((magnitude - 3) * 1000))` (test.py line 64). -/
def feltOf (m : ℚ) : ℤ := max 0 (pyInt ((m - 3) * 1000))

/-- `sig = int(magnitude * 100 + 100)` (test.py line 68). -/
def sigOf (m : ℚ) : ℤ := pyInt (m * 100 + 100)

/-- The alert cascade of `generate_seismic_features` (test.py lines
71-87), evaluated top-down with first match winning, on the derived
`sig`, `mmi`, `cdi` and the sampled `depth`. -/
def alertOf (m depth : ℚ) : ℕ :=
  if 7 ≤ m ∨ 1000 ≤ sigOf m ∨ 8 ≤ mmiOf m ∨ 7 ≤ cdiOf m then 4
  else if (6.5 : ℚ) ≤ m ∨ 700 ≤ sigOf m ∨ (6.5 : ℚ) ≤ mmiOf m ∨ (5.5 : ℚ) ≤ cdiOf m ∨
      (6 ≤ m ∧ depth ≤ 10) then 3
  else if 6 ≤ m ∨ 400 ≤ sigOf m ∨ 5 ≤ mmiOf m ∨ 4 ≤ cdiOf m ∨
      ((5.5 : ℚ) ≤ m ∧ depth ≤ 20) then 2
  else if (5.5 : ℚ) ≤ m ∨ 200 ≤ sigOf m ∨ 4 ≤ mmiOf m ∨ 3 ≤ cdiOf m ∨
      (5 ≤ m ∧ depth ≤ 30) then 1
  else 0

/-- The synthetic feature dict built by `generate_seismic_features`:
twelve fixed keys. -/
structure SeismicFeatures where
  mag : ℚ
  latitude : ℚ
  longitude : ℚ
  time : ℤ
  depth : ℚ
  cdi : ℚ
  mmi : ℚ
  felt : ℤ
  sig : ℤ
  alert : ℕ
  tsunami : ℕ
  magType : ℕ

/-- `generate_seismic_features(magnitude, latitude, longitude)` (test.py
lines 27-96).  Its two impure inputs are made explicit: `now_ms` is
`int(datetime.now().timestamp() * 1000)` and `sampled_depth` is the
`np.random.uniform(0, 5)` draw. -/
def generate_seismic_features (magnitude latitude longitude : ℚ)
    (now_ms : ℤ) (sampled_depth : ℚ) : SeismicFeatures :=
  { mag := magnitude
    latitude := latitude
    longitude := longitude
    time := now_ms
    depth := sampled_depth
    cdi := cdiOf magnitude
    mmi := mmiOf magnitude
    felt := feltOf magnitude
    sig := sigOf magnitude
    alert := alertOf magnitude sampled_depth
    tsunami := 0
    magType := 24 }

theorem pyInt_le_iff (k : ℤ) (hk : 0 < k) (x : ℚ) : k ≤ pyInt x ↔ (k : ℚ) ≤ x := by
  unfold pyInt
  split_ifs with h
  · exact Int.le_floor
  · push_neg at h
    constructor
    · intro hc
      exact absurd hc (by have := Int.ceil_le.mpr (le_of_lt (h.trans_le (by norm_num)) :
        x ≤ ((0 : ℤ) : ℚ)); omega)
    · intro hc
      exact absurd hc (by push_neg; exact lt_of_lt_of_le h (by exact_mod_cast hk.le))

theorem red_iff (m : ℚ) :
    (7 ≤ m ∨ 1000 ≤ sigOf m ∨ 8 ≤ mmiOf m ∨ 7 ≤ cdiOf m) ↔ 7 ≤ m := by
  constructor
  · rintro (h | h | h | h)
    · exact h
    · have := (pyInt_le_iff 1000 (by norm_num) (m * 100 + 100)).mp h
      push_cast at this; linarith
    · exact absurd h (by unfold mmiOf; split_ifs <;> norm_num)
    · exact absurd h (by unfold cdiOf; split_ifs <;> norm_num)
  · exact Or.inl

theorem orange_iff (m depth : ℚ) :
    ((6.5 : ℚ) ≤ m ∨ 700 ≤ sigOf m ∨ (6.5 : ℚ) ≤ mmiOf m ∨ (5.5 : ℚ) ≤ cdiOf m ∨
      (6 ≤ m ∧ depth ≤ 10)) ↔ 6 ≤ m := by
  constructor
  · rintro (h | h | h | h | ⟨h, -⟩)
    · linarith
    · have := (pyInt_le_iff 700 (by norm_num) (m * 100 + 100)).mp h
      push_cast at this; linarith
    · revert h; unfold mmiOf; split_ifs with h1 h2 h3 <;> intro h <;> linarith
    · revert h; unfold cdiOf; split_ifs with h1 h2 h3 <;> intro h <;> linarith
    · exact h
  · intro h
    refine Or.inr (Or.inl ?_)
    unfold sigOf
    rw [pyInt_le_iff 700 (by norm_num)]
    push_cast; linarith

theorem yellow_iff (m depth : ℚ) :
    (6 ≤ m ∨ 400 ≤ sigOf m ∨ 5 ≤ mmiOf m ∨ 4 ≤ cdiOf m ∨
      ((5.5 : ℚ) ≤ m ∧ depth ≤ 20)) ↔ 3 ≤ m := by
  constructor
  · rintro (h | h | h | h | ⟨h, -⟩)
    · linarith
    · have := (pyInt_le_iff 400 (by norm_num) (m * 100 + 100)).mp h
      push_cast at this; linarith
    · revert h; unfold mmiOf; split_ifs with h1 h2 h3 <;> intro h <;> linarith
    · revert h; unfold cdiOf; split_ifs with h1 h2 h3 <;> intro h <;> linarith
    · linarith
  · intro h
    refine Or.inr (Or.inl ?_)
    unfold sigOf
    rw [pyInt_le_iff 400 (by norm_num)]
    push_cast; linarith

theorem green_iff (m depth : ℚ) :
    ((5.5 : ℚ) ≤ m ∨ 200 ≤ sigOf m ∨ 4 ≤ mmiOf m ∨ 3 ≤ cdiOf m ∨
      (5 ≤ m ∧ depth ≤ 30)) ↔ 1 ≤ m := by
  constructor
  · rintro (h | h | h | h | ⟨h, -⟩)
    · linarith
    · have := (pyInt_le_iff 200 (by norm_num) (m * 100 + 100)).mp h
      push_cast at this; linarith
    · revert h; unfold mmiOf; split_ifs with h1 h2 h3 <;> intro h <;> linarith
    · revert h; unfold cdiOf; split_ifs with h1 h2 h3 <;> intro h <;> linarith
    · linarith
  · intro h
    refine Or.inr (Or.inl ?_)
    unfold sigOf
    rw [pyInt_le_iff 200 (by norm_num)]
    push_cast; linarith

/-- The alert cascade collapses to a step function of magnitude alone:
the `sig` thresholds subsume every depth-guarded disjunct.  In
particular the alert tier does not depend on the sampled depth. -/
theorem alertOf_eq (m depth : ℚ) :
    alertOf m depth
      = (if 7 ≤ m then 4 else if 6 ≤ m then 3 else if 3 ≤ m then 2
          else if 1 ≤ m then 1 else 0) := by
  unfold alertOf
  rw [if_congr (red_iff m) rfl rfl]
  rw [if_congr (Iff.rfl) rfl (if_congr (orange_iff m depth) rfl rfl)]
  rw [if_congr (Iff.rfl) rfl (if_congr Iff.rfl rfl (if_congr (yellow_iff m depth) rfl rfl))]
  rw [if_congr (Iff.rfl) rfl (if_congr Iff.rfl rfl (if_congr Iff.rfl rfl
    (if_congr (green_iff m depth) rfl rfl)))]

/-- C5: with every derived intensity computed from magnitude by the
source's rules, the alert tier is monotone in magnitude at any fixed
depth (and any fixed location/clock inputs). -/
theorem generate_alert_monotone (lat lon : ℚ) (t : ℤ) (depth : ℚ) (m1 m2 : ℚ)
    (h : m1 ≤ m2) :
    (generate_seismic_features m1 lat lon t depth).alert
      ≤ (generate_seismic_features m2 lat lon t depth).alert := by
  show alertOf m1 depth ≤ alertOf m2 depth
  rw [alertOf_eq, alertOf_eq]
  split_ifs <;> first | decide | (exfalso; linarith)

/-- Witness for `generate_alert_monotone` at magnitudes 5 and 6. -/
theorem generate_alert_monotone_witness :
    (generate_seismic_features 5 1 2 0 3).alert
      ≤ (generate_seismic_features 6 1 2 0 3).alert :=
  generate_alert_monotone 1 2 0 3 5 6 (by norm_num)

/-- The seven comparison features of `find_closest_in_cluster`
(test.py line 120). -/
def comparison_features : List String :=
  ["mag", "depth", "latitude", "longitude", "sig", "cdi", "mmi"]

/-- Squared Euclidean distance over the comparison features.  The source
computes `euclidean_distances` and takes `np.argmin`; squaring is
monotone, so minimising the squared distance selects the same row. -/
def dist2 (q r : String → ℚ) : ℚ :=
  (comparison_features.map (fun k => (q k - r k) ^ 2)).sum

/-- `clustered_data[clustered_data['cluster'] == cluster_id]` with the
original DataFrame index of each row preserved (pandas keeps row labels
through boolean filtering; `.name` later recovers them). -/
def clusterRows (cid : ℤ) : List (ℤ × (String → ℚ)) → ℕ → List (ℕ × (String → ℚ))
  | [], _ => []
  | (c, r) :: rest, i =>
      if c = cid then (i, r) :: clusterRows cid rest (i + 1)
      else clusterRows cid rest (i + 1)

/-- `np.argmin`: index of the first minimal element. -/
def argminAux : List ℚ → ℕ → ℕ → ℚ → ℕ
  | [], _, bi, _ => bi
  | x :: xs, i, bi, bv =>
      if x < bv then argminAux xs (i + 1) i x else argminAux xs (i + 1) bi bv

/-- `np.argmin` over a distance list (0 on the empty list, which the
caller never passes). -/
def argminIdx : List ℚ → ℕ
  | [] => 0
  | x :: xs => argminAux xs 1 0 x

/-- `find_closest_in_cluster` (test.py lines 112-138).  Rows of the
clustered dataset are (cluster id, features); `original` is the
original-scale dataset indexed positionally.  Returns `none` for an
empty cluster; otherwise the minimum-distance row, the original-scale
row at its preserved index (`none` modelling the `iloc` failure when the
index is out of range, which in Python raises), and its distance. -/
def find_closest_in_cluster (cid : ℤ) (q : String → ℚ)
    (clustered : List (ℤ × (String → ℚ))) (original : List (List (String × ℚ))) :
    Option ((String → ℚ) × Option (List (String × ℚ)) × ℚ) :=
  match clusterRows cid clustered 0 with
  | [] => none
  | r0 :: rs =>
      let rows := r0 :: rs
      let ci := argminIdx (rows.map (fun p => dist2 q p.2))
      match rows.get? ci with
      | some p => some (p.2, original.get? p.1, dist2 q p.2)
      | none => none

/-- `keep_original` (test.py line 197). -/
def keep_original : List String := ["mag", "latitude", "longitude"]

/-- The tail of `predict_seismic_impact` (test.py lines 192-206): with a
match, copy the synthetic dict and overwrite every column of the closest
original example except `keep_original`; with no match, return the
synthetic dict unchanged.  (`some (_, none, _)` corresponds to the
`iloc` indexing error path, on which Python raises instead of
returning.) -/
def refine_prediction (synth : List (String × ℚ))
    (closest : Option ((String → ℚ) × Option (List (String × ℚ)) × ℚ)) :
    Option (List (String × ℚ)) :=
  match closest with
  | none => some synth
  | some (_, some orig, _) => some (dictWriteAll keep_original synth orig)
  | some (_, none, _) => none

theorem clusterRows_eq_nil (cid : ℤ) (clustered : List (ℤ × (String → ℚ)))
    (h : ∀ p ∈ clustered, p.1 ≠ cid) : ∀ i, clusterRows cid clustered i = [] := by
  induction clustered with
  | nil => intro i; rfl
  | cons p rest ih =>
    intro i
    obtain ⟨c, r⟩ := p
    have hc : c ≠ cid := h (c, r) (List.mem_cons_self _ _)
    simp only [clusterRows, if_neg hc]
    exact ih (fun p hp => h p (List.mem_cons_of_mem _ hp)) (i + 1)

/-- C6: (i) an empty predicted cluster makes `find_closest_in_cluster`
report no match, and the final prediction is then the unrefined synthetic
dict, exactly; (ii) on the refinement path, `mag`, `latitude` and
`longitude` always keep the synthetic values, every column carried by the
historical example other than those three ends up with the example's
value, and a synthetic field with no corresponding example column is left
unchanged. -/
theorem predict_refinement_spec (cid : ℤ) (q : String → ℚ)
    (clustered : List (ℤ × (String → ℚ))) (original : List (List (String × ℚ)))
    (synth ex : List (String × ℚ)) :
    ((∀ p ∈ clustered, p.1 ≠ cid) →
      find_closest_in_cluster cid q clustered original = none ∧
      refine_prediction synth (find_closest_in_cluster cid q clustered original)
        = some synth) ∧
    (∀ (rnorm : String → ℚ) (dist : ℚ) (result : List (String × ℚ)),
      refine_prediction synth (some (rnorm, some ex, dist)) = some result →
      (dictLookup result "mag" = dictLookup synth "mag" ∧
       dictLookup result "latitude" = dictLookup synth "latitude" ∧
       dictLookup result "longitude" = dictLookup synth "longitude") ∧
      (∀ k v, (k, v) ∈ ex → k ∉ keep_original → (ex.map Prod.fst).Nodup →
        dictLookup result k = some v) ∧
      (∀ k, k ∉ ex.map Prod.fst → dictLookup result k = dictLookup synth k)) := by
  constructor
  · intro h
    have h0 : clusterRows cid clustered 0 = [] := clusterRows_eq_nil cid clustered h 0
    constructor
    · simp [find_closest_in_cluster, h0]
    · simp [find_closest_in_cluster, h0, refine_prediction]
  · intro rnorm dist result hres
    have hr : dictWriteAll keep_original synth ex = result := by
      simpa [refine_prediction] using hres
    subst hr
    refine ⟨⟨?_, ?_, ?_⟩, ?_, ?_⟩
    · exact dictLookup_dictWriteAll_skip keep_original "mag" (by decide) ex synth
    · exact dictLookup_dictWriteAll_skip keep_original "latitude" (by decide) ex synth
    · exact dictLookup_dictWriteAll_skip keep_original "longitude" (by decide) ex synth
    · intro k v hm hk hnd
      exact dictLookup_dictWriteAll_mem keep_original k v hk ex synth hm hnd
    · intro k hk
      exact dictLookup_dictWriteAll_not_mem keep_original k ex synth hk

/-- Witness for `predict_refinement_spec`: an empty cluster (the only row
belongs to cluster 1, the query asks for cluster 0) falls back to the
synthetic dict exactly, and a concrete refinement keeps `mag` while
overwriting `depth` from the example and leaving an absent column
untouched. -/
theorem predict_refinement_spec_witness :
    (find_closest_in_cluster 0 (fun _ => 0) [((1 : ℤ), fun _ => 0)] [] = none ∧
      refine_prediction [("mag", (5 : ℚ)), ("depth", 3)]
        (find_closest_in_cluster 0 (fun _ => 0) [((1 : ℤ), fun _ => 0)] [])
        = some [("mag", (5 : ℚ)), ("depth", 3)]) ∧
    (dictLookup (dictWriteAll keep_original [("mag", (5 : ℚ)), ("depth", 3)]
        [("depth", (9 : ℚ)), ("place", 2)]) "mag"
      = dictLookup [("mag", (5 : ℚ)), ("depth", 3)] "mag" ∧
     dictLookup (dictWriteAll keep_original [("mag", (5 : ℚ)), ("depth", 3)]
        [("depth", (9 : ℚ)), ("place", 2)]) "depth" = some 9 ∧
     dictLookup (dictWriteAll keep_original [("mag", (5 : ℚ)), ("depth", 3)]
        [("depth", (9 : ℚ)), ("place", 2)]) "other"
      = dictLookup [("mag", (5 : ℚ)), ("depth", 3)] "other") := by
  have h := predict_refinement_spec 0 (fun _ => 0) [((1 : ℤ), fun _ => 0)] []
    [("mag", (5 : ℚ)), ("depth", 3)] [("depth", (9 : ℚ)), ("place", 2)]
  have h2 := h.2 (fun _ => 0) 0
    (dictWriteAll keep_original [("mag", (5 : ℚ)), ("depth", 3)]
      [("depth", (9 : ℚ)), ("place", 2)]) rfl
  exact ⟨h.1 (by decide), h2.1.1,
    h2.2.1 "depth" 9 (by decide) (by decide) (by decide),
    h2.2.2 "other" (by decide)⟩

/-- The ordered twelve-feature schema `all_features` (test.py line 160). -/
def all_features : List String :=
  ["mag", "time", "felt", "cdi", "mmi", "alert", "sig", "tsunami", "magType",
   "longitude", "latitude", "depth"]

/-- `synthetic_features[feature]` as a number (ints are promoted when the
numpy array is built). -/
def featVal (f : SeismicFeatures) : String → ℚ
  | "mag" => f.mag
  | "time" => (f.time : ℚ)
  | "felt" => (f.felt : ℚ)
  | "cdi" => f.cdi
  | "mmi" => f.mmi
  | "alert" => (f.alert : ℚ)
  | "sig" => (f.sig : ℚ)
  | "tsunami" => (f.tsunami : ℚ)
  | "magType" => (f.magType : ℚ)
  | "longitude" => f.longitude
  | "latitude" => f.latitude
  | "depth" => f.depth
  | _ => 0

/-- The assembly loop of test.py lines 169-177: walk `all_features`,
taking the next entry of `normalized_subset` (sequential `normalize_idx`)
for features in `features_to_normalize` and the raw synthetic value
otherwise.  (An out-of-range `normalized_subset[idx]` would raise in
Python; `getD _ 0` stands in, unreachable when the scaler preserves
length.) -/
def assembleLoop (toNorm : List String) (normSub : List ℚ) (f : SeismicFeatures) :
    List String → ℕ → List ℚ
  | [], _ => []
  | feat :: rest, idx =>
      if feat ∈ toNorm then normSub.getD idx 0 :: assembleLoop toNorm normSub f rest (idx + 1)
      else featVal f feat :: assembleLoop toNorm normSub f rest idx

/-- `full_feature_array` (test.py lines 163-179): normalize the
`features_to_normalize` values with the scaler artifact, then assemble
the full ordered vector. -/
def full_feature_array (scaler : List ℚ → List ℚ) (toNorm : List String)
    (f : SeismicFeatures) : List ℚ :=
  assembleLoop toNorm (scaler (toNorm.map (featVal f))) f all_features 0

/-- `kmeans.predict(full_feature_array)[0]` (test.py line 182), with the
clustering model an opaque artifact. -/
def predict_cluster (kmeans : List ℚ → ℤ) (scaler : List ℚ → List ℚ)
    (toNorm : List String) (f : SeismicFeatures) : ℤ :=
  kmeans (full_feature_array scaler toNorm f)

/-- C10: two calls of `generate_seismic_features` with the same
(magnitude, latitude, longitude) agree on every output field except
`depth` (the uniform draw) and `time` (the wall clock) — in particular
the alert tier agrees because the cascade is depth-independent; `time` is
one of the twelve assembled features; and since the wall clock reaches
the vector handed to the clustering artifact, there are artifact values
under the declared interface for which the cluster assignment differs
between two calls with identical request parameters and identical depth:
the assignment is not a deterministic function of the request. -/
theorem generate_time_nondeterminism :
    (∀ (m lat lon : ℚ) (t1 t2 : ℤ) (d1 d2 : ℚ),
      (generate_seismic_features m lat lon t1 d1).mag
        = (generate_seismic_features m lat lon t2 d2).mag ∧
      (generate_seismic_features m lat lon t1 d1).latitude
        = (generate_seismic_features m lat lon t2 d2).latitude ∧
      (generate_seismic_features m lat lon t1 d1).longitude
        = (generate_seismic_features m lat lon t2 d2).longitude ∧
      (generate_seismic_features m lat lon t1 d1).cdi
        = (generate_seismic_features m lat lon t2 d2).cdi ∧
      (generate_seismic_features m lat lon t1 d1).mmi
        = (generate_seismic_features m lat lon t2 d2).mmi ∧
      (generate_seismic_features m lat lon t1 d1).felt
        = (generate_seismic_features m lat lon t2 d2).felt ∧
      (generate_seismic_features m lat lon t1 d1).sig
        = (generate_seismic_features m lat lon t2 d2).sig ∧
      (generate_seismic_features m lat lon t1 d1).alert
        = (generate_seismic_features m lat lon t2 d2).alert ∧
      (generate_seismic_features m lat lon t1 d1).tsunami
        = (generate_seismic_features m lat lon t2 d2).tsunami ∧
      (generate_seismic_features m lat lon t1 d1).magType
        = (generate_seismic_features m lat lon t2 d2).magType) ∧
    ("time" ∈ all_features ∧ all_features.length = 12) ∧
    (∃ (kmeans : List ℚ → ℤ) (scaler : List ℚ → List ℚ) (toNorm : List String)
        (m lat lon d : ℚ) (t1 t2 : ℤ),
      predict_cluster kmeans scaler toNorm (generate_seismic_features m lat lon t1 d)
        ≠ predict_cluster kmeans scaler toNorm (generate_seismic_features m lat lon t2 d)) := by
  refine ⟨?_, ⟨by decide, by decide⟩, ?_⟩
  · intro m lat lon t1 t2 d1 d2
    refine ⟨rfl, rfl, rfl, rfl, rfl, rfl, rfl, ?_, rfl, rfl⟩
    show alertOf m d1 = alertOf m d2
    rw [alertOf_eq, alertOf_eq]
  · refine ⟨fun v => ⌊v.getD 1 0⌋, id, [], 0, 0, 0, 0, 0, 1, ?_⟩
    decide

end TestModel

namespace PredictRouter

/-- The observable answers of the `/predict` endpoint (predict.py):
a 400 validation rejection, a 500 server failure (the `HTTPException`
detail string is carried), or a success payload (alert-level name and
cluster id suffice for the properties checked here). -/
inductive EndpointResponse where
  | clientError : String → EndpointResponse
  | serverError : String → EndpointResponse
  | ok : String → ℤ → EndpointResponse
deriving DecidableEq

/-- `alert_names.get(n, "Unknown")` (predict.py lines 56-58). -/
def alert_names (n : ℤ) : String :=
  if n = 0 then "No Alert" else if n = 1 then "Green" else if n = 2 then "Yellow"
  else if n = 3 then "Orange" else if n = 4 then "Red" else "Unknown"

/-- The value `predict_seismic_impact` hands back to the endpoint
(test.py lines 140-206): `none` models the bare `return None` taken when
any of the five artifact loads raises (lines 149-157); otherwise the
`(result_dict, energy, cluster)` triple, whose first component is one of
the two feature dicts and is therefore itself non-`None`
(`some` of a dict). -/
def predict_seismic_impact_outcome (loadOk : Bool)
    (run : Unit → List (String × ℚ) × ℚ × ℤ) :
    Option (Option (List (String × ℚ)) × ℚ × ℤ) :=
  if loadOk then
    let r := run ()
    some (some r.1, r.2.1, r.2.2)
  else none

/-- The `/predict` handler (predict.py lines 34-89).  Validation happens
first; then `result, energy, cluster = predict_seismic_impact(...)` —
when the call returned the bare `None`, this tuple unpacking raises
`TypeError: cannot unpack non-iterable NoneType object`, which falls to
the generic `except Exception` handler (line 88) and becomes a 500 with
the `Internal server error: ...` detail; the dedicated
`if result is None` branch (lines 53-54) is unreachable.  On the some
path, `int(result['alert'])` drives the response (a missing key would be
a `KeyError`, again the generic 500). -/
def predict_endpoint (mass velocity latitude longitude : ℚ)
    (outcome : Option (Option (List (String × ℚ)) × ℚ × ℤ)) : EndpointResponse :=
  if mass ≤ 0 then .clientError "Mass must be positive"
  else if velocity ≤ 0 then .clientError "Velocity must be positive"
  else if ¬(-90 ≤ latitude ∧ latitude ≤ 90) then
    .clientError "Latitude must be between -90 and 90 degrees"
  else if ¬(-180 ≤ longitude ∧ longitude ≤ 180) then
    .clientError "Longitude must be between -180 and 180 degrees"
  else
    match outcome with
    | none => .serverError "Internal server error: cannot unpack non-iterable NoneType object"
    | some (result, _energy, cluster) =>
        match result with
        | none => .serverError "Prediction model failed to load or execute"
        | some r =>
            match dictLookup r "alert" with
            | some a => .ok (alert_names (TestModel.pyInt a)) cluster
            | none => .serverError "Internal server error: KeyError: alert"

/-- Whether a response is the 400 validation rejection. -/
def isClientError : EndpointResponse → Bool
  | .clientError _ => true
  | _ => false

/-- C4 (code bug): for a request passing validation, an artifact-load
failure (`predict_seismic_impact` returns the bare `None`) makes the
endpoint answer a 500 that is NOT the dedicated
`Prediction model failed to load or execute` branch: the tuple unpacking
of `None` raises `TypeError` first, so the generic handler answers
`Internal server error: cannot unpack non-iterable NoneType object`.
The failure is still a server error distinguishable from a 400
validation error, and no exception escapes the handler, but the branch
the claim names is dead code. -/
theorem predict_endpoint_load_failure :
    predict_seismic_impact_outcome false (fun _ => ([], 0, 0)) = none ∧
    predict_endpoint 1 1 0 0 none
      = .serverError "Internal server error: cannot unpack non-iterable NoneType object" ∧
    predict_endpoint 1 1 0 0 none
      ≠ .serverError "Prediction model failed to load or execute" ∧
    isClientError (predict_endpoint 1 1 0 0 none) = false := by
  refine ⟨rfl, ?_, ?_, ?_⟩ <;> decide

end PredictRouter
